import Mathlib

/-!
Verification development for the interactive phonopy + VASP workflow manager
(`workflow.py`).  The script's string manipulation is embedded over `List Char`
(Python `str` values), its filesystem interactions over explicit state records,
and its fallible operations over `Except`.  Every definition is translated from
the source; interactive prompts are modelled by passing the sequence of operator
responses explicitly, and `subprocess` invocations by their observable file
artifacts.
-/

/-- Python strings are modelled as lists of characters so that every string
operation of the script reduces inside the kernel. -/
abbrev Str := List Char

deriving instance DecidableEq for Except

/-- Python `c.isspace()` for the characters `str.split()`/`str.strip()` treat
as whitespace (space, tab, newline, carriage return, vertical tab, form feed). -/
def isPyWs (c : Char) : Bool :=
  c == ' ' || c == '\t' || c == '\n' || c == '\r' || c == '\x0b' || c == '\x0c'

/-- Accumulator worker for `pySplitWs`. -/
def splitWsAux : Str → Str → List Str
  | [], acc => if acc.isEmpty then [] else [acc.reverse]
  | c :: rest, acc =>
    if isPyWs c then
      if acc.isEmpty then splitWsAux rest [] else acc.reverse :: splitWsAux rest []
    else splitWsAux rest (c :: acc)

/-- Python `s.split()` with no argument: split on runs of whitespace and drop
empty pieces. -/
def pySplitWs (s : Str) : List Str := splitWsAux s []

/-- Python `s.strip()`: drop leading and trailing whitespace. -/
def pyStrip (s : Str) : Str := ((s.dropWhile isPyWs).reverse.dropWhile isPyWs).reverse

/-- Python `s.upper()` on the ASCII label tokens used by the script. -/
def pyUpper (s : Str) : Str := s.map Char.toUpper

/-- Python `s.isdigit()` on the ASCII suffixes produced by phonopy: nonempty
and all decimal digits. -/
def pyIsDigitStr (s : Str) : Bool := !s.isEmpty && s.all Char.isDigit

/-- Python `s.split("-")`: split on every dash, keeping empty pieces. -/
def splitDash : Str → List Str
  | [] => [[]]
  | c :: rest =>
    if c = '-' then [] :: splitDash rest
    else
      match splitDash rest with
      | [] => [[c]]
      | g :: gs => (c :: g) :: gs

/-- Inverse of `splitDash`: rejoin the pieces with dashes (used only to reason
about `splitDash`). -/
def joinDash : List Str → Str
  | [] => []
  | [g] => g
  | g :: gs => g ++ '-' :: joinDash gs

/-- Value of a nonempty digit string (used by the model of Python `int`). -/
def digitsToNat (ds : Str) : Nat := ds.foldl (fun acc c => acc * 10 + (c.toNat - '0'.toNat)) 0

/-- Python `int(s)` on a string: strip whitespace, optional sign, then a
nonempty run of decimal digits; any other shape raises `ValueError` (`none`). -/
def pyParseInt (s : Str) : Option Int :=
  match pyStrip s with
  | [] => none
  | '-' :: ds => if pyIsDigitStr ds then some (-(digitsToNat ds : Int)) else none
  | '+' :: ds => if pyIsDigitStr ds then some (digitsToNat ds : Int) else none
  | ds => if pyIsDigitStr ds then some (digitsToNat ds : Int) else none

/-- Boolean lexicographic comparison of names, standing in for the total order
Python `sorted` uses on path names.  Only the fact that sorting permutes the
list is used by the theorems. -/
def nameLeB : Str → Str → Bool
  | [], _ => true
  | _ :: _, [] => false
  | a :: as, b :: bs => if a < b then true else if b < a then false else nameLeB as bs

/-- The sorting relation for Python `sorted` over file names. -/
def nameLe (a b : Str) : Prop := nameLeB a b = true

instance : DecidableRel nameLe := fun a b => inferInstanceAs (Decidable (nameLeB a b = true))

/-- Substring test: `pat in hay` for Python strings. -/
def strContains (hay pat : Str) : Bool :=
  (List.range (hay.length + 1)).any fun i => pat.isPrefixOf (hay.drop i)

/-- `WorkflowConfig` from the script.  The source field `prefix` is renamed to
`prefixName` because `prefix` is a Lean keyword; `dims` is declared
`Tuple[int, int, int]` in the source but nothing enforces the arity at runtime,
so it is embedded as `List Int`; `Path` values are embedded as the strings the
config store persists. -/
structure WorkflowConfig where
  stage : String
  dims : List Int
  prefixName : String
  poscar_path : Option String := none
  apply_symmetry : Bool := true
  atom_name : String := "BO3"
  band_points : Int := 51
  band_labels : String := "$\\Gamma$ M K $\\Gamma$"
  band_sequence : List String := ["G", "M", "K", "G"]
deriving DecidableEq

/-- The persisted record `workflow_state.json`, embedded at the level of the
JSON dictionary `save_config_snapshot` writes (the `json.dumps`/`json.loads`
text round trip is the identity on this data). -/
structure ConfigSnapshot where
  dims : List Int
  prefixName : String
  atom_name : String
  band_points : Int
  band_labels : String
  band_sequence : List String
  poscar_path : Option String
  apply_symmetry : Bool
deriving DecidableEq

/-- `save_config_snapshot`: the dictionary written to `workflow_state.json`. -/
def save_config_snapshot (c : WorkflowConfig) : ConfigSnapshot :=
  { dims := c.dims
    prefixName := c.prefixName
    atom_name := c.atom_name
    band_points := c.band_points
    band_labels := c.band_labels
    band_sequence := c.band_sequence
    poscar_path := c.poscar_path
    apply_symmetry := c.apply_symmetry }

/-- `load_config_snapshot` on an existing record: rebuild a `WorkflowConfig`
with the caller-supplied stage.  `dims = tuple(int(v) for v in data["dims"])`
is the identity on the stored integers and imposes no arity or sign check. -/
def load_config_snapshot (stage : String) (s : ConfigSnapshot) : WorkflowConfig :=
  { stage := stage
    dims := s.dims.map fun v => v
    prefixName := s.prefixName
    poscar_path := s.poscar_path
    apply_symmetry := s.apply_symmetry
    atom_name := s.atom_name
    band_points := s.band_points
    band_labels := s.band_labels
    band_sequence := s.band_sequence }

/-- `prompt_int_list`: repeatedly read a response until one splits into exactly
`count` integers.  `responses` is the sequence of (nonempty) operator inputs;
`none` means the operator never supplies a valid response.  No positivity check
is performed. -/
def prompt_int_list (count : Nat) : List Str → Option (List Int)
  | [] => none
  | r :: rest =>
    if (pySplitWs r).length != count then prompt_int_list count rest
    else
      match (pySplitWs r).mapM pyParseInt with
      | some vals => some vals
      | none => prompt_int_list count rest

/-- The pre-processing branch of `collect_configuration`: the POSCAR file-name
loop and the yes/no prompt are modelled by their already-validated outcomes,
the supercell prompt by the operator's responses, and the remaining fields by
the fixed values the source assigns. -/
def collect_configuration_pre (poscarName : String) (applySym : Bool)
    (dimResponses : List Str) (pfx : String) : Option WorkflowConfig :=
  (prompt_int_list 3 dimResponses).map fun dims =>
    { stage := "pre"
      dims := dims
      prefixName := pfx
      poscar_path := some poscarName
      apply_symmetry := applySym
      atom_name := "BO3"
      band_points := 51
      band_labels := "$\\Gamma$ M K $\\Gamma$"
      band_sequence := ["G", "M", "K", "G"] }

/-- The invariant claimed for `supercell_dims`: exactly 3 strictly positive
entries. -/
def dimsValidB (c : WorkflowConfig) : Bool :=
  c.dims.length == 3 && c.dims.all fun d => decide (0 < d)

/-- Glob `POSCAR-*` on a file name. -/
def globB (n : Str) : Bool := List.isPrefixOf "POSCAR-".data n

/-- The two-part numeric test of `run_displacements`:
`parts = name.split("-"); len(parts) == 2 and parts[1].isdigit()`. -/
def twoPartNumB (name : Str) : Bool :=
  match splitDash name with
  | [_, s] => pyIsDigitStr s
  | _ => false

/-- One loop iteration of `run_displacements`: the work directory and moved
file for a generated name, or `none` when the name is skipped. -/
def moveOf (p : Str) (name : Str) : Option (Str × Str) :=
  match splitDash name with
  | [_, s] => if pyIsDigitStr s then some (p ++ '-' :: s, name) else none
  | _ => none

/-- The relocation loop of `run_displacements` over the sorted matched files:
the list of (work directory, moved file) pairs, skipping unrecognized names. -/
def relocate (p : Str) : List Str → List (Str × Str)
  | [] => []
  | n :: rest =>
    match moveOf p n with
    | some m => m :: relocate p rest
    | none => relocate p rest

/-- `sorted(path for path in Path.cwd().glob("POSCAR-*") if path.is_file())`:
the glob-matched file names in sorted order. -/
def dispOrder (files : List Str) : List Str :=
  List.insertionSort nameLe (files.filter globB)

/-- Error message raised when the glob matches nothing. -/
def noDispMsg : Str := "未找到 phonopy 生成的 POSCAR-* 文件。".data

/-- `run_displacements` after the `phonopy -d` invocation, as a function of the
file names present in the working directory: fail if the glob matches nothing,
otherwise relocate every two-part numeric `POSCAR-*` file into its work
directory. -/
def run_displacements (p : Str) (cwdFiles : List Str) : Except Str (List (Str × Str)) :=
  let poscar_files := dispOrder cwdFiles
  if poscar_files.isEmpty then .error noDispMsg
  else .ok (relocate p poscar_files)

/-- Directory state: an association list from work-directory name to the origin
of the `POSCAR` file it currently contains. -/
def DirState := List (Str × Str)

/-- Effect of one iteration: `dest_dir.mkdir(parents=True, exist_ok=True)`,
unlink a pre-existing `POSCAR`, and move the source file in. -/
def setPoscar : DirState → Str → Str → DirState
  | [], d, src => [(d, src)]
  | e :: rest, d, src => if e.1 = d then (d, src) :: rest else e :: setPoscar rest d src

/-- Origin of the `POSCAR` file currently inside directory `d`, if any. -/
def lookupDir : DirState → Str → Option Str
  | [], _ => none
  | e :: rest, d => if e.1 = d then some e.2 else lookupDir rest d

/-- Apply a list of relocation moves to a directory state. -/
def applyMoves (st : DirState) : List (Str × Str) → DirState
  | [] => st
  | m :: rest => applyMoves (setPoscar st m.1 m.2) rest

/-- The literal marker `"aborting loop because EDIFF is reached"`. -/
def kwConv : Str := "aborting loop because EDIFF is reached".data

/-- The literal marker `"Voluntary"`. -/
def kwFin : Str := "Voluntary".data

/-- The line scan of `check_convergence` with its early `break` once both
markers have been seen. -/
def scanLoop : List Str → Bool → Bool → Bool × Bool
  | [], c, f => (c, f)
  | line :: rest, c, f =>
    let c2 := c || strContains line kwConv
    let f2 := f || strContains line kwFin
    if c2 && f2 then (c2, f2) else scanLoop rest c2 f2

/-- The `"/"`-joined failure reason of `check_convergence`. -/
def convReason (c f : Bool) : Str :=
  let state : List Str :=
    (if c then [] else ["EDIFF 条件未满足".data]) ++ (if f then [] else ["计算未正常结束".data])
  if state.isEmpty then "原因未知".data else List.intercalate "/".data state

/-- `check_convergence` for one work directory, as a function of the directory
name and the `OUTCAR` content (`none` when the file is missing). -/
def check_convergence (folder : Str) (outcar : Option (List Str)) : Except Str Unit :=
  match outcar with
  | none => .error (folder ++ " 缺少 OUTCAR。".data)
  | some lines =>
    let r := scanLoop lines false false
    if r.1 && r.2 then .ok ()
    else .error (folder ++ " 未收敛: ".data ++ convReason r.1 r.2)

/-- A work directory as the post-processing stage sees it: its name, the
content of its `OUTCAR` (if present, as a list of lines), and its remaining
files with their sizes (`vasprun.xml` among them). -/
structure PFolder where
  name : Str
  outcar : Option (List Str)
  files : List (Str × Nat)
deriving DecidableEq

/-- Whether an `Except` value is a success. -/
def exceptOk {ε α : Type} : Except ε α → Bool
  | .ok _ => true
  | .error _ => false

/-- `check_convergence` applied to a work directory record. -/
def check_convergence_folder (f : PFolder) : Except Str Unit :=
  check_convergence f.name f.outcar

/-- The accumulation loop of `run_postprocessing`: run the single-directory
check on every directory, collecting the ones whose check raises. -/
def collect_unconverged : List PFolder → List PFolder
  | [] => []
  | f :: rest =>
    match check_convergence_folder f with
    | .ok _ => collect_unconverged rest
    | .error _ => f :: collect_unconverged rest

/-- Observable post-processing steps, used to state in which order the stage
acts on the work directories. -/
inductive Event where
  | convCheck (name : Str)
  | logUnconverged (names : List Str)
  | cleanup (name : Str)
  | collectForces
deriving DecidableEq

/-- The message of the aggregate `RuntimeError`; the failing directories
themselves are reported by the accompanying log block (the
`Event.logUnconverged` event). -/
def batchMsg (n : Nat) : Str :=
  "发现 ".data ++ (toString n).data ++ " 个未收敛的文件夹，后处理终止。".data

/-- The batch convergence gate of `run_postprocessing`: check every directory,
and if any failed, log the full list and raise one aggregate error. -/
def convergencePhase (folders : List PFolder) : List Event × Except Str Unit :=
  let checks := folders.map fun f => Event.convCheck f.name
  let u := collect_unconverged folders
  if u.isEmpty then (checks, .ok ())
  else (checks ++ [Event.logUnconverged (u.map fun f => f.name)], .error (batchMsg u.length))

/-- `clean_empty_files`: remove every zero-size file from the directory. -/
def clean_empty_files (f : PFolder) : PFolder :=
  { f with files := f.files.filter fun x => x.2 != 0 }

/-- Size of the first file named `n` in the directory, if any. -/
def lookupFile (f : PFolder) (n : Str) : Option Nat :=
  List.lookup n f.files

/-- `collect_vasprun_paths`: require a `vasprun.xml` in every directory,
nonempty, raising at the first offender; on success return the ordered path
list handed to `phonopy -f`. -/
def collect_vasprun_paths : List PFolder → Except Str (List Str)
  | [] => .ok []
  | f :: rest =>
    match lookupFile f "vasprun.xml".data with
    | none => .error (f.name ++ " 缺少 vasprun.xml。".data)
    | some sz =>
      if sz == 0 then .error (f.name ++ "/vasprun.xml 文件为空，请检查 VASP 计算是否完成。".data)
      else
        match collect_vasprun_paths rest with
        | .error e => .error e
        | .ok ps => .ok ((f.name ++ "/vasprun.xml".data) :: ps)

/-- The force-set collection prefix of `run_postprocessing`: empty-file cleanup
in every directory, then the `vasprun.xml` checks. -/
def forcePhase (folders : List PFolder) : Except Str (List Str) :=
  collect_vasprun_paths (folders.map clean_empty_files)

/-- Whether a directory holds a nonempty `vasprun.xml`. -/
def hasNonemptyVasprunB (f : PFolder) : Bool :=
  f.files.any fun x => x.1 == "vasprun.xml".data && x.2 != 0

/-- The `^{re.escape(prefix)}-(\d+)$` pattern of `find_dispersion_folders`
(the glob `{prefix}-*` it is preceded by accepts a superset). -/
def matchesFolderB (p : Str) (name : Str) : Bool :=
  List.isPrefixOf (p ++ ['-']) name &&
    (let s := name.drop (p.length + 1); !s.isEmpty && s.all Char.isDigit)

/-- The working directory as post-processing sees it: whether
`POSCAR-unitcell` exists, and the subdirectories with their contents. -/
structure World where
  unitcellExists : Bool
  dirs : List PFolder

/-- `find_dispersion_folders`: the sorted subdirectories matching the
prefix-number pattern, or an error when there are none. -/
def find_dispersion_folders (p : Str) (dirs : List PFolder) : Except Str (List PFolder) :=
  let folders := (List.insertionSort (fun a b : PFolder => nameLe a.name b.name) dirs).filter
    fun f => matchesFolderB p f.name
  if folders.isEmpty then
    .error ("未找到以 ".data ++ p ++ " 为前缀的声子计算文件夹。".data)
  else .ok folders

/-- The validation prefix of `run_postprocessing`, through the `phonopy -f`
force-set collection, with the steps it performs recorded as events (the
band-structure steps past this point are not needed by any claim). -/
def run_postprocessing_model (p : Str) (w : World) : List Event × Except Str Unit :=
  if w.unitcellExists = false then ([], .error "缺少 POSCAR-unitcell，无法执行后处理。".data)
  else
    match find_dispersion_folders p w.dirs with
    | .error e => ([], .error e)
    | .ok folders =>
      match convergencePhase folders with
      | (tr, .error e) => (tr, .error e)
      | (tr, .ok _) =>
        let tr2 := tr ++ folders.map fun f => Event.cleanup f.name
        match forcePhase folders with
        | .error e => (tr2, .error e)
        | .ok _ => (tr2 ++ [Event.collectForces], .ok ())

/-- Fallible body of `read_atom_name_from_poscar` (everything inside its
`try`), as a function of the file content: `none` models an unreadable or
missing file (`open`/`readlines` raising), `some lines` the decoded lines
(newlines already stripped, as `.strip()` would). -/
def read_atom_name_inner (content : Option (List Str)) : Except Str Str :=
  match content with
  | none => .error "无法打开文件".data
  | some lines =>
    if lines.length < 6 then .error "POSCAR 文件格式不完整".data
    else .ok (List.flatten (pySplitWs (pyStrip (lines.getD 5 []))))

/-- `read_atom_name_from_poscar`: the `except Exception` handler turns every
failure into the default `"BO3"`. -/
def read_atom_name_from_poscar (content : Option (List Str)) : Str :=
  match read_atom_name_inner content with
  | .ok s => s
  | .error _ => "BO3".data

/-- Fractional k-point coordinates.  The script computes them as floats; the
constants it uses are embedded exactly (`1.0/3.0` as the rational `1/3`), and
no claim depends on their numeric values. -/
abbrev Q3 := ℚ × ℚ × ℚ

/-- The Gamma point of the fixed fallback table. -/
def ptG : Q3 := (0, 0, 0)

/-- The M point of the fixed fallback table. -/
def ptM : Q3 := (1/2, 0, 0)

/-- The K point of the fixed fallback table. -/
def ptK : Q3 := (1/3, -1/3, 0)

/-- The fixed fallback table of `determine_band_path`. -/
def fallback_points : List (Str × Q3) :=
  [("G".data, ptG), ("M".data, ptM), ("K".data, ptK)]

/-- Gamma-point aliasing: labels `G` and `GAMMA` look up the helper's `Γ`. -/
def searchSymbol (s : Str) : Str :=
  if s = "G".data then "Γ".data else if s = "GAMMA".data then "Γ".data else s

/-- Lookup of a label among the helper's special points. -/
def lookupPoint (sp : List (Str × Q3)) (s : Str) : Option Q3 := List.lookup s sp

/-- Coordinate resolution for one label: helper lookup under the aliased
symbol, then under the raw symbol, then the fixed table, else raise. -/
def convertSymbol (sp : List (Str × Q3)) (s : Str) : Except Str Q3 :=
  match lookupPoint sp (searchSymbol s) with
  | some c => .ok c
  | none =>
    match lookupPoint sp s with
    | some c => .ok c
    | none =>
      match lookupPoint fallback_points s with
      | some c => .ok c
      | none => .error ("未知高对称点 ".data ++ s)

/-- The coordinate loop over the entered sequence, raising at the first
unknown label. -/
def convertTokens (sp : List (Str × Q3)) : List Str → Except Str (List Q3)
  | [] => .ok []
  | s :: rest =>
    match convertSymbol sp s with
    | .error e => .error e
    | .ok c =>
      match convertTokens sp rest with
      | .error e => .error e
      | .ok cs => .ok (c :: cs)

/-- `BAND_LABELS` rendering: `G` becomes the Gamma symbol, other labels render
verbatim, space-joined. -/
def bandLabelsOf (seq : List Str) : Str :=
  List.intercalate " ".data (seq.map fun s => if s = "G".data then "$\\Gamma$".data else s)

/-- Everything `determine_band_path` does after the helper succeeded, as a
function of the helper's special points and the operator's path input: token
normalization, the two-label minimum, coordinate resolution, label
rendering.  Raises exactly where the source raises. -/
def band_path_inner (sp : List (Str × Q3)) (input : Str) :
    Except Str (List Str × List Q3 × Str) :=
  let seq := ((pySplitWs input).map pyUpper).filter fun t => !t.isEmpty
  if seq.length < 2 then .error "至少需要两个高对称点。".data
  else
    match convertTokens sp seq with
    | .error e => .error e
    | .ok coords => .ok (seq, coords, bandLabelsOf seq)

/-- The built-in default path returned when the helper is unavailable or the
`try` block raises. -/
def default_band_result : List Str × List Q3 × Str :=
  (["G".data, "M".data, "K".data, "G".data], [ptG, ptM, ptK, ptG],
    "$\\Gamma$ M K $\\Gamma$".data)

/-- `determine_band_path`: `helper = none` models ASE being unavailable or
failing before the prompt; with `some sp` the body runs, and any exception it
raises is caught by the enclosing `except Exception`, which falls through to
the built-in default path. -/
def determine_band_path (helper : Option (List (Str × Q3))) (input : Str) :
    List Str × List Q3 × Str :=
  match helper with
  | none => default_band_result
  | some sp =>
    match band_path_inner sp input with
    | .ok r => r
    | .error _ => default_band_result

/-- A work directory whose log carries both markers and whose `vasprun.xml`
is nonempty (concrete input for witnesses). -/
def demoGood : PFolder :=
  { name := "g".data
    outcar := some ["aborting loop because EDIFF is reached".data, "Voluntary".data]
    files := [("vasprun.xml".data, 5)] }

/-- A work directory with no `OUTCAR` (concrete input for witnesses). -/
def demoBad1 : PFolder := { name := "b1".data, outcar := none, files := [] }

/-- A work directory whose `OUTCAR` lacks both markers (concrete input for
witnesses). -/
def demoBad2 : PFolder := { name := "b2".data, outcar := some ["x".data], files := [] }

/-- A work directory that converged but whose `vasprun.xml` is zero-length
(concrete input for witnesses). -/
def demoNoV : PFolder :=
  { name := "v".data
    outcar := some ["aborting loop because EDIFF is reached".data, "Voluntary".data]
    files := [("vasprun.xml".data, 0)] }

/-- A helper result exposing only the Gamma point (concrete input for the
band-path theorems). -/
def spGammaOnly : List (Str × Q3) := [("Γ".data, ptG)]

/-! ## Helper lemmas -/

theorem any_eq_of_perm {l1 l2 : List Str} (p : Str → Bool) (hp : l1.Perm l2) :
    l1.any p = l2.any p := by
  rw [Bool.eq_iff_iff, List.any_eq_true, List.any_eq_true]
  exact ⟨fun ⟨x, hx, hpx⟩ => ⟨x, hp.mem_iff.1 hx, hpx⟩,
    fun ⟨x, hx, hpx⟩ => ⟨x, hp.mem_iff.2 hx, hpx⟩⟩

theorem scanLoop_eq (lines : List Str) : ∀ c f, scanLoop lines c f =
    (c || lines.any fun l => strContains l kwConv,
      f || lines.any fun l => strContains l kwFin) := by
  induction lines with
  | nil => intro c f; simp [scanLoop]
  | cons h t ih =>
    intro c f
    cases hc : strContains h kwConv <;> cases hf : strContains h kwFin <;>
      cases c <;> cases f <;> simp [scanLoop, hc, hf, ih]

theorem scanLoop_base (lines : List Str) : scanLoop lines false false =
    (lines.any fun l => strContains l kwConv, lines.any fun l => strContains l kwFin) := by
  rw [scanLoop_eq]; simp

/-! ## C4 -/

/-- C4: the single-directory convergence check succeeds iff the log contains
both literal markers, in either order; on failure the error message carries a
reason distinguishing which marker (or both) was missing; and the early-exit
scan loop computes exactly the same two flags as a full scan. -/
theorem check_convergence_marker_spec (folder : Str) (lines : List Str) :
    (check_convergence folder (some lines) = .ok () ↔
      (lines.any fun l => strContains l kwConv) = true ∧
        (lines.any fun l => strContains l kwFin) = true)
    ∧ (∀ lines2, lines.Perm lines2 →
        (check_convergence folder (some lines) = .ok () ↔
          check_convergence folder (some lines2) = .ok ()))
    ∧ (check_convergence folder (some lines) ≠ .ok () →
        check_convergence folder (some lines) =
          .error (folder ++ " 未收敛: ".data ++
            convReason (lines.any fun l => strContains l kwConv)
              (lines.any fun l => strContains l kwFin)))
    ∧ (convReason false true ≠ convReason true false ∧
        convReason false true ≠ convReason false false ∧
        convReason true false ≠ convReason false false)
    ∧ scanLoop lines false false =
        (lines.any fun l => strContains l kwConv,
          lines.any fun l => strContains l kwFin) := by
  have key : ∀ ls : List Str, check_convergence folder (some ls) = .ok () ↔
      (ls.any fun l => strContains l kwConv) = true ∧
        (ls.any fun l => strContains l kwFin) = true := by
    intro ls
    cases hc : ls.any fun l => strContains l kwConv <;>
      cases hf : ls.any fun l => strContains l kwFin <;>
        simp [check_convergence, scanLoop_base, hc, hf]
  refine ⟨key lines, ?_, ?_, by refine ⟨by decide, by decide, by decide⟩, scanLoop_base lines⟩
  · intro lines2 hp
    rw [key lines, key lines2, any_eq_of_perm _ hp, any_eq_of_perm _ hp]
  · intro hne
    cases hc : lines.any fun l => strContains l kwConv <;>
      cases hf : lines.any fun l => strContains l kwFin <;>
        first
          | exact absurd ((key lines).mpr ⟨hc, hf⟩) hne
          | (simp only [check_convergence]; rw [scanLoop_base, hc, hf]; rfl)

/-- C4 witness: a log with the markers in reverse order passes; a log missing
the threshold marker fails with the message identifying the missing marker. -/
theorem check_convergence_marker_spec_witness :
    check_convergence "d".data
      (some ["Voluntary".data, "aborting loop because EDIFF is reached".data]) = .ok ()
    ∧ check_convergence "d".data (some ["Voluntary".data]) =
        .error ("d".data ++ " 未收敛: ".data ++ convReason false true) := by
  constructor
  · exact (check_convergence_marker_spec "d".data _).1.mpr ⟨by decide, by decide⟩
  · have h := (check_convergence_marker_spec "d".data ["Voluntary".data]).2.2.1
      (by decide)
    rw [h]
    rfl

/-! ## C5 -/

/-- C5: saving the configuration record and loading it back with any
caller-supplied stage reproduces the supercell dimensions, folder prefix,
symmetry flag and band fields exactly (proved for every configuration, valid
ones included). -/
theorem config_roundtrip (c : WorkflowConfig) (stage : String) :
    (load_config_snapshot stage (save_config_snapshot c)).dims = c.dims
    ∧ (load_config_snapshot stage (save_config_snapshot c)).prefixName = c.prefixName
    ∧ (load_config_snapshot stage (save_config_snapshot c)).apply_symmetry = c.apply_symmetry
    ∧ (load_config_snapshot stage (save_config_snapshot c)).band_points = c.band_points
    ∧ (load_config_snapshot stage (save_config_snapshot c)).band_labels = c.band_labels
    ∧ (load_config_snapshot stage (save_config_snapshot c)).band_sequence = c.band_sequence
    ∧ (load_config_snapshot stage (save_config_snapshot c)).stage = stage := by
  refine ⟨?_, rfl, rfl, rfl, rfl, rfl, rfl⟩
  simp [load_config_snapshot, save_config_snapshot]

/-! ## C10 -/

/-- C10: reading the atom composition is total — a missing/unreadable file or
one with fewer than 6 lines yields the default `BO3`, and otherwise the result
is the concatenation of the whitespace-separated element symbols of line 6;
the `except Exception` handler means no exception escapes (the embedding is a
total function). -/
theorem read_atom_name_total_spec (content : Option (List Str)) :
    (content = none → read_atom_name_from_poscar content = "BO3".data)
    ∧ (∀ lines, content = some lines → lines.length < 6 →
        read_atom_name_from_poscar content = "BO3".data)
    ∧ (∀ lines, content = some lines → 6 ≤ lines.length →
        read_atom_name_from_poscar content =
          List.flatten (pySplitWs (pyStrip (lines.getD 5 [])))) := by
  refine ⟨fun h => by subst h; rfl, fun lines h hl => ?_, fun lines h hl => ?_⟩
  · subst h
    simp [read_atom_name_from_poscar, read_atom_name_inner, if_pos hl]
  · subst h
    simp [read_atom_name_from_poscar, read_atom_name_inner, Nat.not_lt.mpr hl]

/-- C10 witness: the default is returned for a missing file and a short file,
and a well-formed sixth line is concatenated. -/
theorem read_atom_name_total_spec_witness :
    read_atom_name_from_poscar none = "BO3".data
    ∧ read_atom_name_from_poscar (some [[], [], [], [], []]) = "BO3".data
    ∧ read_atom_name_from_poscar (some [[], [], [], [], [], " B O3 ".data]) = "BO3".data := by
  refine ⟨(read_atom_name_total_spec none).1 rfl,
    (read_atom_name_total_spec _).2.1 _ rfl (by decide), ?_⟩
  rw [(read_atom_name_total_spec _).2.2 _ rfl (by decide)]
  decide

/-! ## C1 -/

theorem collect_unconverged_eq_filter (fs : List PFolder) :
    collect_unconverged fs = fs.filter fun f => !exceptOk (check_convergence_folder f) := by
  induction fs with
  | nil => rfl
  | cons f rest ih =>
    cases h : check_convergence_folder f <;>
      simp [collect_unconverged, List.filter_cons, h, exceptOk, ih]

theorem convergencePhase_eq (folders : List PFolder) :
    convergencePhase folders =
      if (folders.filter fun f => !exceptOk (check_convergence_folder f)).isEmpty then
        (folders.map fun f => Event.convCheck f.name, .ok ())
      else
        ((folders.map fun f => Event.convCheck f.name) ++
          [Event.logUnconverged
            ((folders.filter fun f => !exceptOk (check_convergence_folder f)).map fun f => f.name)],
          .error (batchMsg (folders.filter fun f => !exceptOk (check_convergence_folder f)).length)) := by
  unfold convergencePhase
  rw [collect_unconverged_eq_filter]

/-- C1: the batch gate of `run_postprocessing` runs the single-directory check
against every work directory (a `convCheck` event is emitted for each one, so
no early stop), and afterwards: if the accumulated failure set — exactly the
directories whose individual check raises — is empty it raises nothing and
proceeds, else it raises one aggregate error whose count is the number of
failing directories while the accompanying report names all of them. -/
theorem validate_all_batch_spec (folders : List PFolder) :
    (∀ f ∈ folders, Event.convCheck f.name ∈ (convergencePhase folders).1)
    ∧ ((folders.filter fun f => !exceptOk (check_convergence_folder f)) = [] →
        convergencePhase folders = (folders.map fun f => Event.convCheck f.name, .ok ()))
    ∧ ((folders.filter fun f => !exceptOk (check_convergence_folder f)) ≠ [] →
        (convergencePhase folders).2 =
          .error (batchMsg (folders.filter fun f => !exceptOk (check_convergence_folder f)).length)
        ∧ Event.logUnconverged
            ((folders.filter fun f => !exceptOk (check_convergence_folder f)).map fun f => f.name)
            ∈ (convergencePhase folders).1) := by
  have hrw := convergencePhase_eq folders
  by_cases hemp : (folders.filter fun f => !exceptOk (check_convergence_folder f)) = []
  · rw [hrw, if_pos (by simp [hemp])]
    refine ⟨?_, fun _ => rfl, fun hne => absurd hemp hne⟩
    intro f hf
    exact List.mem_map.mpr ⟨f, hf, rfl⟩
  · rw [hrw, if_neg (by simp [hemp])]
    refine ⟨?_, fun he => absurd he hemp, fun _ => ⟨rfl, ?_⟩⟩
    · intro f hf
      exact List.mem_append.mpr (Or.inl (List.mem_map.mpr ⟨f, hf, rfl⟩))
    · exact List.mem_append.mpr (Or.inr (by simp))

/-- C1 witness: with one converged and two unconverged directories the batch
gate checks all three, raises the aggregate error counting two failures, and
its report names exactly the two failing directories. -/
theorem validate_all_batch_spec_witness :
    (convergencePhase [demoGood, demoBad1, demoBad2]).2 = .error (batchMsg 2)
    ∧ Event.logUnconverged ["b1".data, "b2".data]
        ∈ (convergencePhase [demoGood, demoBad1, demoBad2]).1
    ∧ Event.convCheck "g".data ∈ (convergencePhase [demoGood, demoBad1, demoBad2]).1 := by
  have h := (validate_all_batch_spec [demoGood, demoBad1, demoBad2]).2.2 (by decide)
  have hall := (validate_all_batch_spec [demoGood, demoBad1, demoBad2]).1 demoGood (by decide)
  refine ⟨?_, ?_, hall⟩
  · rw [h.1]
    rfl
  · have e : (([demoGood, demoBad1, demoBad2].filter
        fun f => !exceptOk (check_convergence_folder f)).map fun f => f.name) =
        ["b1".data, "b2".data] := by decide
    rw [← e]
    exact h.2

/-! ## C8 -/

theorem lookup_clean (files : List (Str × Nat)) :
    (List.lookup "vasprun.xml".data (files.filter fun x => x.2 != 0) = none ↔
      files.any (fun x => x.1 == "vasprun.xml".data && x.2 != 0) = false)
    ∧ ∀ sz, List.lookup "vasprun.xml".data (files.filter fun x => x.2 != 0) = some sz →
        sz ≠ 0 := by
  induction files with
  | nil => exact ⟨by simp, by simp⟩
  | cons x rest ih =>
    by_cases h2 : x.2 = 0
    · simpa [List.filter_cons, List.any_cons, h2] using ih
    · by_cases h1 : x.1 = "vasprun.xml".data
      · refine ⟨by simp [List.filter_cons, List.any_cons, h1, h2, List.lookup], ?_⟩
        intro sz hsz
        simp [List.filter_cons, List.any_cons, h1, h2, List.lookup] at hsz
        omega
      · have hb : ("vasprun.xml".data == x.1) = false := by
          simp [beq_iff_eq]
          exact fun hh => h1 hh.symm
        simpa [List.filter_cons, List.any_cons, h1, h2, List.lookup, hb] using ih

theorem collect_vasprun_first_missing : ∀ folders : List PFolder,
    (∃ f ∈ folders, hasNonemptyVasprunB f = false) →
    ∃ f ∈ folders, hasNonemptyVasprunB f = false ∧
      forcePhase folders = .error (f.name ++ " 缺少 vasprun.xml。".data) := by
  intro folders
  induction folders with
  | nil => exact fun h => absurd h (by simp)
  | cons f rest ih =>
    intro h
    by_cases hf : hasNonemptyVasprunB f = false
    · refine ⟨f, by simp, hf, ?_⟩
      have hnone : lookupFile (clean_empty_files f) "vasprun.xml".data = none :=
        (lookup_clean f.files).1.mpr hf
      show collect_vasprun_paths (List.map clean_empty_files (f :: rest)) = _
      rw [List.map_cons]
      unfold collect_vasprun_paths
      rw [hnone]
      rfl
    · have hft : hasNonemptyVasprunB f = true := by
        cases hv : hasNonemptyVasprunB f
        · exact absurd hv hf
        · rfl
      have hrest : ∃ g ∈ rest, hasNonemptyVasprunB g = false := by
        rcases h with ⟨g, hg, hgb⟩
        rcases List.mem_cons.mp hg with hgf | hgr
        · exact absurd (hgf ▸ hgb) hf
        · exact ⟨g, hgr, hgb⟩
      obtain ⟨g, hg, hgb, herr⟩ := ih hrest
      refine ⟨g, List.mem_cons_of_mem f hg, hgb, ?_⟩
      have hsome : ∃ sz, lookupFile (clean_empty_files f) "vasprun.xml".data = some sz := by
        cases hl : lookupFile (clean_empty_files f) "vasprun.xml".data
        · have hthis : f.files.any (fun x => x.1 == "vasprun.xml".data && x.2 != 0) = true := hft
          have hfalse := (lookup_clean f.files).1.mp hl
          rw [hthis] at hfalse
          exact absurd hfalse (by decide)
        · exact ⟨_, rfl⟩
      obtain ⟨sz, hsz⟩ := hsome
      have hszne : sz ≠ 0 := (lookup_clean f.files).2 sz hsz
      show collect_vasprun_paths (List.map clean_empty_files (f :: rest)) = _
      rw [List.map_cons]
      unfold collect_vasprun_paths
      split
      · next heq =>
        rw [heq] at hsz
        exact absurd hsz (by simp)
      · next sz2 heq =>
        rw [heq] at hsz
        have hsz2 : sz2 = sz := Option.some.inj hsz
        subst hsz2
        rw [if_neg (by simp [hszne])]
        rw [show collect_vasprun_paths (List.map clean_empty_files rest) =
          Except.error (g.name ++ " 缺少 vasprun.xml。".data) from herr]

/-- C8: if any one of the work directories lacks a nonempty `vasprun.xml`
(even when all the others are valid), force-set aggregation fails with an
error naming an offending directory; and the zero-length-file cleanup that
precedes the check leaves no zero-length file in any directory it scans. -/
theorem aggregate_missing_vasprun_spec (folders : List PFolder)
    (h : ∃ f ∈ folders, hasNonemptyVasprunB f = false) :
    (∃ f ∈ folders, hasNonemptyVasprunB f = false ∧
        forcePhase folders = .error (f.name ++ " 缺少 vasprun.xml。".data))
    ∧ ∀ f ∈ folders, ∀ x ∈ (clean_empty_files f).files, x.2 ≠ 0 := by
  refine ⟨collect_vasprun_first_missing folders h, ?_⟩
  intro f _ x hx
  have := List.mem_filter.mp hx
  simpa using this.2

/-- C8 witness: one valid directory plus one whose `vasprun.xml` was
zero-length (hence deleted by the cleanup) makes aggregation fail naming the
offender. -/
theorem aggregate_missing_vasprun_spec_witness :
    forcePhase [demoGood, demoNoV] = .error ("v".data ++ " 缺少 vasprun.xml。".data) := by
  obtain ⟨f, hf, hbad, herr⟩ :=
    (aggregate_missing_vasprun_spec [demoGood, demoNoV] ⟨demoNoV, by decide, by decide⟩).1
  rcases List.mem_cons.mp hf with h | h
  · exact absurd (h ▸ hbad) (by decide)
  · rcases List.mem_cons.mp h with h2 | h2
    · rw [h2] at herr
      exact herr
    · exact absurd h2 (by simp)

/-! ## C9 -/

/-- C9: with the canonical unit cell present but no directory matching the
prefix-number pattern, post-processing raises the missing-folder error with an
empty event trace — that is, before any convergence check, cleanup, or
aggregation step runs. -/
theorem postprocessing_no_folder_spec (p : Str) (w : World)
    (h1 : w.unitcellExists = true)
    (h2 : ∀ f ∈ w.dirs, matchesFolderB p f.name = false) :
    run_postprocessing_model p w =
      ([], .error ("未找到以 ".data ++ p ++ " 为前缀的声子计算文件夹。".data)) := by
  have hfilter : ((List.insertionSort (fun a b : PFolder => nameLe a.name b.name) w.dirs).filter
      fun f => matchesFolderB p f.name) = [] := by
    rw [List.filter_eq_nil_iff]
    intro f hf
    simp [h2 f ((List.perm_insertionSort (fun a b : PFolder => nameLe a.name b.name) w.dirs).mem_iff.1 hf)]
  unfold run_postprocessing_model
  rw [if_neg (by simp [h1])]
  unfold find_dispersion_folders
  rw [hfilter]
  rfl

/-- C9 witness: a world with the unit cell present and one non-matching
directory fails immediately with the missing-folder error and no events. -/
theorem postprocessing_no_folder_spec_witness :
    run_postprocessing_model "pre".data ⟨true, [demoBad1]⟩ =
      ([], .error ("未找到以 ".data ++ "pre".data ++ " 为前缀的声子计算文件夹。".data)) :=
  postprocessing_no_folder_spec "pre".data ⟨true, [demoBad1]⟩ rfl (by decide)

/-! ## C7 -/

theorem mapM_length {α β : Type} (f : α → Option β) :
    ∀ (l : List α) (r : List β), l.mapM f = some r → r.length = l.length := by
  intro l
  induction l with
  | nil =>
    intro r h
    simp only [List.mapM_nil, pure, Option.some.injEq] at h
    simp [← h]
  | cons a as ih =>
    intro r h
    cases hfa : f a with
    | none => rw [List.mapM_cons, hfa] at h; simp at h
    | some b =>
      rw [List.mapM_cons, hfa] at h
      cases hms : as.mapM f with
      | none => rw [hms] at h; simp at h
      | some bs =>
        rw [hms] at h
        have hbr : b :: bs = r := Option.some.inj h
        rw [← hbr]
        simp [ih bs hms]

theorem prompt_int_list_length (count : Nat) :
    ∀ (rs : List Str) (vals : List Int), prompt_int_list count rs = some vals →
      vals.length = count := by
  intro rs
  induction rs with
  | nil => intro vals h; simp [prompt_int_list] at h
  | cons r rest ih =>
    intro vals h
    unfold prompt_int_list at h
    split at h
    · exact ih vals h
    · next hcond =>
      split at h
      · next vs heq =>
        have hv : vs = vals := Option.some.inj h
        rw [← hv, mapM_length pyParseInt (pySplitWs r) vs heq]
        simpa using hcond
      · exact ih vals h

/-- C7 counterexample: the interactive supercell prompt accepts `0 0 0`,
producing a configuration whose dims are not strictly positive, and loading a
record whose dims list has two entries produces a configuration with two
entries — so not every constructed configuration has 3 strictly-positive
supercell dimensions. -/
theorem supercell_dims_invariant_counterexample :
    (collect_configuration_pre "POSCAR" true ["0 0 0".data] "p").map dimsValidB = some false
    ∧ dimsValidB (load_config_snapshot "post"
        { dims := [2, 2], prefixName := "p", atom_name := "BO3", band_points := 51,
          band_labels := "L", band_sequence := [], poscar_path := none,
          apply_symmetry := true }) = false := by
  constructor <;> decide

/-- C7 amended: interactively collected configurations always have exactly 3
entries in `supercell_dims` (the prompt re-asks until exactly 3 integers are
supplied) but no strict-positivity check is performed; configurations loaded
from the persisted record take `dims` exactly as stored, with neither an
entry-count nor a positivity check. -/
theorem supercell_dims_amended_spec :
    (∀ (poscarName : String) (applySym : Bool) (rs : List Str) (pfx : String)
        (c : WorkflowConfig),
        collect_configuration_pre poscarName applySym rs pfx = some c →
        c.dims.length = 3)
    ∧ ∀ (stage : String) (s : ConfigSnapshot), (load_config_snapshot stage s).dims = s.dims := by
  constructor
  · intro pn as rs pfx c hc
    rcases Option.map_eq_some'.mp hc with ⟨dims, hd, hfc⟩
    have hlen := prompt_int_list_length 3 rs dims hd
    rw [← hfc]
    exact hlen
  · intro stage s
    simp [load_config_snapshot]

/-- C7 amended witness: the accepted response `2 2 2` yields a configuration
with exactly 3 supercell entries. -/
theorem supercell_dims_amended_spec_witness :
    (collect_configuration_pre "POSCAR" true ["2 2 2".data] "p").map
      (fun c => c.dims.length) = some 3 := by
  cases hc : collect_configuration_pre "POSCAR" true ["2 2 2".data] "p" with
  | none => exact absurd hc (by decide)
  | some c =>
    have h3 := supercell_dims_amended_spec.1 "POSCAR" true ["2 2 2".data] "p" c hc
    simp [h3]

/-! ## C3 -/

/-- C3 counterexample: with the crystallography helper succeeding (it knows
only `Γ`) and the operator entering `G X`, the body raises the unknown-label
error naming `X`, but the enclosing `except Exception` catches it and
`determine_band_path` silently returns the built-in default path — the claim's
"fails with a fatal error, does not silently degrade to the default path" is
false on the code. -/
theorem band_path_unknown_label_counterexample :
    band_path_inner spGammaOnly "G X".data = .error ("未知高对称点 ".data ++ "X".data)
    ∧ determine_band_path (some spGammaOnly) "G X".data = default_band_result :=
  ⟨rfl, rfl⟩

/-- C3 amended: per-label fallback to the fixed table holds (a label the
helper does not know but the table does resolves to the table's coordinates),
and a label known to neither raises the error naming it — but that error is
raised inside the `try` block, so the resolver catches it and returns the
built-in default path instead of failing fatally. -/
theorem band_path_label_resolution_spec :
    (∀ (sp : List (Str × Q3)) (s : Str) (c : Q3),
        lookupPoint sp (searchSymbol s) = none → lookupPoint sp s = none →
        lookupPoint fallback_points s = some c → convertSymbol sp s = .ok c)
    ∧ (∀ (sp : List (Str × Q3)) (s : Str),
        lookupPoint sp (searchSymbol s) = none → lookupPoint sp s = none →
        lookupPoint fallback_points s = none →
        convertSymbol sp s = .error ("未知高对称点 ".data ++ s))
    ∧ (∀ (sp : List (Str × Q3)) (input : Str) (e : Str),
        band_path_inner sp input = .error e →
        determine_band_path (some sp) input = default_band_result) := by
  refine ⟨?_, ?_, ?_⟩
  · intro sp s c h1 h2 h3
    unfold convertSymbol
    rw [h1, h2, h3]
  · intro sp s h1 h2 h3
    unfold convertSymbol
    rw [h1, h2, h3]
  · intro sp input e he
    show (match band_path_inner sp input with
      | .ok r => r
      | .error _ => default_band_result) = default_band_result
    rw [he]

/-- C3 amended witness: `M` is unknown to a Gamma-only helper yet resolves to
the table's M point; `X` is unknown everywhere and produces the error naming
it; a one-label input raises inside the `try` and the resolver returns the
default path. -/
theorem band_path_label_resolution_spec_witness :
    convertSymbol spGammaOnly "M".data = .ok ptM
    ∧ convertSymbol spGammaOnly "X".data = .error ("未知高对称点 ".data ++ "X".data)
    ∧ determine_band_path (some spGammaOnly) "M".data = default_band_result :=
  ⟨band_path_label_resolution_spec.1 spGammaOnly "M".data ptM rfl rfl rfl,
    band_path_label_resolution_spec.2.1 spGammaOnly "X".data rfl rfl rfl,
    band_path_label_resolution_spec.2.2 spGammaOnly "M".data
      "至少需要两个高对称点。".data rfl⟩

/-! ## C2 -/

theorem dispOrder_perm (files : List Str) : (dispOrder files).Perm (files.filter globB) :=
  List.perm_insertionSort nameLe (files.filter globB)

theorem moveOf_isSome (p n : Str) : (moveOf p n).isSome = twoPartNumB n := by
  unfold moveOf twoPartNumB
  split
  · next x s heq => cases hps : pyIsDigitStr s <;> simp [hps]
  · rfl

theorem moveOf_eq_none (p n : Str) (hn : twoPartNumB n = false) : moveOf p n = none := by
  have h := moveOf_isSome p n
  rw [hn] at h
  cases hm : moveOf p n
  · rfl
  · rw [hm] at h
    simp at h

theorem relocate_eq_nil (p : Str) : ∀ l : List Str, (∀ f ∈ l, twoPartNumB f = false) →
    relocate p l = [] := by
  intro l
  induction l with
  | nil => intro _; rfl
  | cons n rest ih =>
    intro hall
    unfold relocate
    rw [moveOf_eq_none p n (hall n (by simp))]
    exact ih fun f hf => hall f (List.mem_cons_of_mem n hf)

/-- C2 counterexample: a working directory containing only `POSCAR-unitcell`
(which the preparation step always leaves behind) holds zero displaced
structures, yet `run_displacements` raises nothing — it succeeds with zero
relocation moves, because `POSCAR-unitcell` matches the `POSCAR-*` glob the
emptiness check uses. -/
theorem no_displacements_check_counterexample :
    run_displacements "p".data ["POSCAR-unitcell".data] = .ok []
    ∧ twoPartNumB "POSCAR-unitcell".data = false := by
  constructor <;> decide

/-- C2 amended: the generator raises the no-output error exactly when zero
files match the `POSCAR-*` glob; any glob-matching file (displacement or not,
such as the ever-present `POSCAR-unitcell`) suppresses the error, and when no
file matches the two-part numeric pattern the run succeeds silently with zero
work directories. -/
theorem no_displacements_check_spec :
    (∀ (p : Str) (files : List Str),
        run_displacements p files = .error noDispMsg ↔ files.filter globB = [])
    ∧ (∀ (p : Str) (files : List Str) (r : List (Str × Str)),
        (∀ f ∈ files, twoPartNumB f = false) →
        run_displacements p files = .ok r → r = []) := by
  constructor
  · intro p files
    unfold run_displacements
    constructor
    · intro h
      by_cases he : (dispOrder files).isEmpty
      · have hnil := List.isEmpty_iff.mp he
        have hp := dispOrder_perm files
        rw [hnil] at hp
        exact (hp.symm).eq_nil
      · rw [if_neg he] at h
        exact absurd h (by simp)
    · intro h
      have he : (dispOrder files).isEmpty = true := by
        have hp := dispOrder_perm files
        rw [h] at hp
        rw [List.isEmpty_iff]
        exact hp.eq_nil
      rw [if_pos he]
  · intro p files r hall hr
    unfold run_displacements at hr
    by_cases he : (dispOrder files).isEmpty
    · rw [if_pos he] at hr
      exact absurd hr (by simp)
    · rw [if_neg he] at hr
      have hro : relocate p (dispOrder files) = r := Except.ok.inj hr
      have hall2 : ∀ f ∈ dispOrder files, twoPartNumB f = false := by
        intro f hf
        exact hall f (List.mem_filter.mp ((dispOrder_perm files).mem_iff.1 hf)).1
      rw [← hro]
      exact relocate_eq_nil p (dispOrder files) hall2

/-- C2 amended witness: a directory with no glob match raises the error; a
directory with only `POSCAR-unitcell` yields zero moves. -/
theorem no_displacements_check_spec_witness :
    run_displacements "q".data ["OUTCAR".data] = .error noDispMsg
    ∧ ([] : List (Str × Str)) = [] :=
  ⟨(no_displacements_check_spec.1 "q".data ["OUTCAR".data]).mpr (by decide),
    no_displacements_check_spec.2 "q".data ["POSCAR-unitcell".data] []
      (by decide) (by decide)⟩

/-! ## C6 -/

theorem splitDash_ne_nil : ∀ s : Str, splitDash s ≠ [] := by
  intro s
  cases s with
  | nil => simp [splitDash]
  | cons c rest =>
    by_cases hc : c = '-'
    · simp [splitDash, hc]
    · simp only [splitDash, if_neg hc]
      cases hsd : splitDash rest <;> simp

theorem splitDash_prefix (u : Str) : ∀ t : Str, '-' ∉ u →
    splitDash (u ++ '-' :: t) = u :: splitDash t := by
  induction u with
  | nil => intro t _; simp [splitDash]
  | cons c u2 ih =>
    intro t h
    have hc : c ≠ '-' := fun hh => h (hh ▸ List.mem_cons_self c u2)
    have hu2 : '-' ∉ u2 := fun hh => h (List.mem_cons_of_mem c hh)
    show splitDash (c :: (u2 ++ '-' :: t)) = (c :: u2) :: splitDash t
    simp only [splitDash, if_neg hc, ih t hu2]

theorem splitDash_dashless : ∀ s : Str, '-' ∉ s → splitDash s = [s] := by
  intro s
  induction s with
  | nil => intro _; rfl
  | cons c s2 ih =>
    intro h
    have hc : c ≠ '-' := fun hh => h (hh ▸ List.mem_cons_self c s2)
    have hs2 : '-' ∉ s2 := fun hh => h (List.mem_cons_of_mem c hh)
    simp only [splitDash, if_neg hc, ih hs2]

theorem splitDash_singleton : ∀ t g : Str, splitDash t = [g] → t = g := by
  intro t
  induction t with
  | nil =>
    intro g h
    simp only [splitDash, List.cons.injEq] at h
    exact h.1
  | cons c t2 ih =>
    intro g h
    by_cases hc : c = '-'
    · rw [hc] at h
      rw [show splitDash ('-' :: t2) = [] :: splitDash t2 from by simp [splitDash]] at h
      injection h with h1 h2
      exact absurd h2 (splitDash_ne_nil t2)
    · simp only [splitDash, if_neg hc] at h
      cases hsd : splitDash t2 with
      | nil => exact absurd hsd (splitDash_ne_nil t2)
      | cons g2 gs =>
        rw [hsd] at h
        injection h with h1 h2
        rw [h2] at hsd
        rw [← h1, ih g2 hsd]

theorem digit_no_dash (s : Str) (h : pyIsDigitStr s = true) : '-' ∉ s := by
  intro hmem
  unfold pyIsDigitStr at h
  rw [Bool.and_eq_true] at h
  have := List.all_eq_true.mp h.2 '-' hmem
  simp at this

theorem moveOf_some (p n : Str) (m : Str × Str) (hm : moveOf p n = some m) :
    ∃ x s, splitDash n = [x, s] ∧ pyIsDigitStr s = true ∧ m = (p ++ '-' :: s, n) := by
  unfold moveOf at hm
  split at hm
  · next x s heq =>
    by_cases hd : pyIsDigitStr s = true
    · rw [if_pos hd] at hm
      exact ⟨x, s, heq, hd, (Option.some.inj hm).symm⟩
    · rw [if_neg hd] at hm
      exact absurd hm (by simp)
  · exact absurd hm (by simp)

theorem moveOf_glob_shape (p n : Str) (m : Str × Str) (hg : globB n = true)
    (hm : moveOf p n = some m) :
    ∃ s, pyIsDigitStr s = true ∧ n = "POSCAR-".data ++ s ∧ m = (p ++ '-' :: s, n) := by
  obtain ⟨x, s, heq, hd, hmm⟩ := moveOf_some p n m hm
  unfold globB at hg
  obtain ⟨t, ht⟩ := List.isPrefixOf_iff_prefix.mp hg
  have hn2 : n = "POSCAR".data ++ '-' :: t := by rw [← ht]; rfl
  rw [hn2, splitDash_prefix "POSCAR".data t (by decide)] at heq
  injection heq with e1 e2
  have hts : t = s := splitDash_singleton t s e2
  refine ⟨s, hd, ?_, hmm⟩
  rw [hn2, hts]
  rfl

theorem moveOf_shape_of_digit (p n s : Str) (hn : n = "POSCAR-".data ++ s)
    (hd : pyIsDigitStr s = true) : moveOf p n = some (p ++ '-' :: s, n) := by
  have hsplit : splitDash n = ["POSCAR".data, s] := by
    have hn2 : n = "POSCAR".data ++ '-' :: s := by rw [hn]; rfl
    rw [hn2, splitDash_prefix "POSCAR".data s (by decide),
      splitDash_dashless s (digit_no_dash s hd)]
  unfold moveOf
  rw [hsplit]
  simp [hd]

theorem relocate_eq_filterMap (p : Str) : ∀ l : List Str,
    relocate p l = l.filterMap (moveOf p) := by
  intro l
  induction l with
  | nil => rfl
  | cons n rest ih =>
    cases hm : moveOf p n <;> simp [relocate, List.filterMap_cons, hm, ih]

theorem relocate_mem (p : Str) (l : List Str) (m : Str × Str) :
    m ∈ relocate p l ↔ ∃ n ∈ l, moveOf p n = some m := by
  rw [relocate_eq_filterMap]
  exact List.mem_filterMap

theorem relocate_length (p : Str) : ∀ l : List Str,
    (relocate p l).length = (l.filter twoPartNumB).length := by
  intro l
  induction l with
  | nil => rfl
  | cons n rest ih =>
    have hiso := moveOf_isSome p n
    cases hm : moveOf p n with
    | none =>
      rw [hm] at hiso
      simp [relocate, hm, List.filter_cons, ← hiso, ih]
    | some m =>
      rw [hm] at hiso
      simp [relocate, hm, List.filter_cons, ← hiso, ih]

theorem relocate_dirs_nodup (p : Str) : ∀ l : List Str, l.Nodup →
    (∀ f ∈ l, globB f = true) → ((relocate p l).map Prod.fst).Nodup := by
  intro l
  induction l with
  | nil => intro _ _; simp [relocate]
  | cons n rest ih =>
    intro hnd hall
    have hnd2 := List.nodup_cons.mp hnd
    cases hm : moveOf p n with
    | none =>
      simp only [relocate, hm]
      exact ih hnd2.2 fun f hf => hall f (List.mem_cons_of_mem n hf)
    | some m =>
      simp only [relocate, hm, List.map_cons]
      rw [List.nodup_cons]
      refine ⟨?_, ih hnd2.2 fun f hf => hall f (List.mem_cons_of_mem n hf)⟩
      intro hmem
      obtain ⟨m2, hm2mem, hm2fst⟩ := List.mem_map.mp hmem
      obtain ⟨n2, hn2, hm2⟩ := (relocate_mem p rest m2).mp hm2mem
      obtain ⟨s, hds, hns, hms⟩ := moveOf_glob_shape p n m (hall n (by simp)) hm
      obtain ⟨s2, hds2, hns2, hms2⟩ := moveOf_glob_shape p n2 m2
        (hall n2 (List.mem_cons_of_mem n hn2)) hm2
      rw [hms, hms2] at hm2fst
      simp only at hm2fst
      have hseq : s2 = s := by
        have hcons := List.append_cancel_left hm2fst
        injection hcons
      have hnn : n2 = n := by rw [hns, hns2, hseq]
      exact hnd2.1 (hnn ▸ hn2)

theorem lookup_setPoscar_self : ∀ (st : DirState) (d f : Str),
    lookupDir (setPoscar st d f) d = some f := by
  intro st d f
  induction st with
  | nil => simp [setPoscar, lookupDir]
  | cons e rest ih =>
    by_cases he : e.1 = d
    · simp [setPoscar, he, lookupDir]
    · simp [setPoscar, he, lookupDir, ih]

theorem lookup_setPoscar_other : ∀ (st : DirState) (d f d2 : Str), d2 ≠ d →
    lookupDir (setPoscar st d f) d2 = lookupDir st d2 := by
  intro st d f d2 hne
  induction st with
  | nil =>
    simp only [setPoscar, lookupDir]
    rw [if_neg fun hh => hne hh.symm]
  | cons e rest ih =>
    by_cases he : e.1 = d
    · simp only [setPoscar, if_pos he, lookupDir]
      rw [if_neg fun hh => hne hh.symm, if_neg (by rw [he]; exact fun hh => hne hh.symm)]
    · simp only [setPoscar, if_neg he, lookupDir, ih]

theorem lookup_applyMoves_not_mem : ∀ (ms : List (Str × Str)) (st : DirState) (d : Str),
    d ∉ ms.map Prod.fst → lookupDir (applyMoves st ms) d = lookupDir st d := by
  intro ms
  induction ms with
  | nil => intro st d _; rfl
  | cons m rest ih =>
    intro st d hd
    have hd1 : m.1 ≠ d := fun hh => hd (by simp [← hh])
    have hd2 : d ∉ rest.map Prod.fst := fun hh => hd (by simp [hh])
    show lookupDir (applyMoves (setPoscar st m.1 m.2) rest) d = _
    rw [ih _ d hd2, lookup_setPoscar_other st m.1 m.2 d fun hh => hd1 hh.symm]

theorem lookup_applyMoves_mem : ∀ (ms : List (Str × Str)) (st : DirState) (d f : Str),
    (d, f) ∈ ms → (ms.map Prod.fst).Nodup →
    lookupDir (applyMoves st ms) d = some f := by
  intro ms
  induction ms with
  | nil => intro st d f h _; simp at h
  | cons m rest ih =>
    intro st d f hmem hnd
    rw [List.map_cons, List.nodup_cons] at hnd
    rcases List.mem_cons.mp hmem with he | hr
    · have hd : d ∉ rest.map Prod.fst := by
        have h1 := hnd.1
        rw [← he] at h1
        exact h1
      show lookupDir (applyMoves (setPoscar st m.1 m.2) rest) d = some f
      rw [lookup_applyMoves_not_mem rest _ d hd, ← he]
      exact lookup_setPoscar_self st d f
    · exact ih (setPoscar st m.1 m.2) d f hr hnd.2

/-- C6: over any duplicate-free set of glob-matched generated files, the
relocation loop produces exactly one move per file matching the two-part
numeric pattern, the resulting work directories `{prefix}-{suffix}` are
pairwise distinct, every matching file `POSCAR-{suffix}` is moved into its
directory, non-matching files are skipped (contributing no move, with no
error — the loop is total), and regardless of the pre-existing directory
state, after the moves each directory's canonical `POSCAR` is the file moved
there (idempotent creation, overwriting any pre-existing file). -/
theorem displacement_relocation_spec (p : Str) (files : List Str)
    (h1 : files.Nodup) (h2 : ∀ f ∈ files, globB f = true) :
    (relocate p (dispOrder files)).length = (files.filter twoPartNumB).length
    ∧ ((relocate p (dispOrder files)).map Prod.fst).Nodup
    ∧ (∀ f ∈ files, twoPartNumB f = true →
        ∃ s, pyIsDigitStr s = true ∧ f = "POSCAR-".data ++ s ∧
          (p ++ '-' :: s, f) ∈ relocate p (dispOrder files))
    ∧ (∀ f ∈ files, twoPartNumB f = false →
        ∀ m ∈ relocate p (dispOrder files), m.2 ≠ f)
    ∧ (∀ (init : DirState) (f s : Str), f ∈ files → f = "POSCAR-".data ++ s →
        pyIsDigitStr s = true →
        lookupDir (applyMoves init (relocate p (dispOrder files))) (p ++ '-' :: s)
          = some f) := by
  have hfil : files.filter globB = files := List.filter_eq_self.mpr h2
  have hperm : (dispOrder files).Perm files := by
    have hp := dispOrder_perm files
    rw [hfil] at hp
    exact hp
  have hsnd : (dispOrder files).Nodup := hperm.nodup_iff.mpr h1
  have hsall : ∀ f ∈ dispOrder files, globB f = true :=
    fun f hf => h2 f (hperm.mem_iff.1 hf)
  have hdirs : ((relocate p (dispOrder files)).map Prod.fst).Nodup :=
    relocate_dirs_nodup p (dispOrder files) hsnd hsall
  refine ⟨?_, hdirs, ?_, ?_, ?_⟩
  · rw [relocate_length, (hperm.filter twoPartNumB).length_eq]
  · intro f hf htp
    have hfs : f ∈ dispOrder files := hperm.mem_iff.2 hf
    have hsome : ∃ m, moveOf p f = some m := by
      have hiso := moveOf_isSome p f
      rw [htp] at hiso
      cases hm : moveOf p f
      · rw [hm] at hiso; simp at hiso
      · exact ⟨_, rfl⟩
    obtain ⟨m, hm⟩ := hsome
    obtain ⟨s, hds, hns, hms⟩ := moveOf_glob_shape p f m (h2 f hf) hm
    refine ⟨s, hds, hns, ?_⟩
    rw [show (p ++ '-' :: s, f) = m from hms.symm]
    exact (relocate_mem p (dispOrder files) m).mpr ⟨f, hfs, hm⟩
  · intro f hf htp m hmem heq
    obtain ⟨n, hn, hmn⟩ := (relocate_mem p (dispOrder files) m).mp hmem
    obtain ⟨x, s, _, hd, hms⟩ := moveOf_some p n m hmn
    have hm2 : m.2 = n := by rw [hms]
    have hnf : n = f := by rw [← hm2, heq]
    have hiso := moveOf_isSome p n
    rw [hmn] at hiso
    rw [hnf, htp] at hiso
    simp at hiso
  · intro init f s hf hns hds
    have hfs : f ∈ dispOrder files := hperm.mem_iff.2 hf
    have hm : moveOf p f = some (p ++ '-' :: s, f) := moveOf_shape_of_digit p f s hns hds
    have hmem : (p ++ '-' :: s, f) ∈ relocate p (dispOrder files) :=
      (relocate_mem p (dispOrder files) _).mpr ⟨f, hfs, hm⟩
    exact lookup_applyMoves_mem (relocate p (dispOrder files)) init (p ++ '-' :: s) f
      hmem hdirs

/-- C6 witness: two generated displacement files produce exactly two moves
into two distinct work directories, each holding the file moved there even
when a stale `POSCAR` was already present. -/
theorem displacement_relocation_spec_witness :
    (relocate "disp".data (dispOrder ["POSCAR-001".data, "POSCAR-002".data])).length = 2
    ∧ lookupDir
        (applyMoves [("disp-001".data, "old".data)]
          (relocate "disp".data (dispOrder ["POSCAR-001".data, "POSCAR-002".data])))
        ("disp-001".data) = some "POSCAR-001".data := by
  have h := displacement_relocation_spec "disp".data
    ["POSCAR-001".data, "POSCAR-002".data] (by decide) (by decide)
  constructor
  · rw [h.1]
    decide
  · have h5 := h.2.2.2.2 [("disp-001".data, "old".data)] "POSCAR-001".data "001".data
      (by decide) (by decide) (by decide)
    exact h5
